import Mathlib

/-!
Shallow embedding of `types/mempool.go` (package `types`): the TxKey
identity component (ToProto / TxKeyFromProto / TxKeysListFromProto) and the
mempool error taxonomy (ErrTxInCache, ErrWrongHeight, ..., ErrPreCheck,
IsPreCheckError), together with theorems settling the specification claims.

Bytes are modelled as `Nat` (the code only copies them, never computes with
them), Go byte slices as `List Nat`, and Go's `(value, error)` multi-return
together with runtime faults as the `GoResult` type below.
-/

/-- Outcome of a Go function returning `(value, error)`.  `ok v` is a nil
error, `err v msg` is a non-nil error (Go still returns a value alongside
it, carried here as `v`), and `panic` is a runtime fault such as an
out-of-range slice index. -/
inductive GoResult (α : Type) where
  | ok : α → GoResult α
  | err : α → String → GoResult α
  | panic : GoResult α
deriving DecidableEq, Repr

/-- Whether a `GoResult` is a nil-error success. -/
def GoResult.isOk {α : Type} : GoResult α → Bool
  | .ok _ => true
  | _ => false

/-- The wire message `tmproto.TxKey`: a single bytes field named `TxKey`
(here `txKey`).  A `nil` message pointer is modelled as `Option TmTxKey`
being `none` at use sites. -/
structure TmTxKey where
  txKey : List Nat
deriving DecidableEq, Repr

/-- `sha256.Size`, the fixed length of a `TxKey`. -/
def sha256Size : Nat := 32

/-- A single Go array write `buf[i] = v`: in-range writes update the
buffer, an out-of-range index is a runtime panic (`none`). -/
def arraySet (buf : List Nat) (i : Nat) (v : Nat) : Option (List Nat) :=
  if i < buf.length then some (buf.set i v) else none

/-- The copy loop `for i := range src { buf[i] = src[i] }`: iterates over
the indices of `src` (not of `buf`), so it faults (`none`) as soon as an
index reaches `buf.length`. -/
def copyLoop : List Nat → Nat → List Nat → Option (List Nat)
  | [], _, buf => some buf
  | v :: rest, i, buf =>
    match arraySet buf i v with
    | some buf2 => copyLoop rest (i + 1) buf2
    | none => none

/-- `func (txKey *TxKey) ToProto() *tmproto.TxKey`: allocates a byte slice
of the key's length, copies the key into it when the length is positive,
and stores it in a fresh wire message (whose bytes field starts empty). -/
def TxKey.ToProto (txKey : List Nat) : TmTxKey :=
  if txKey.length > 0 then
    match copyLoop txKey 0 (List.replicate txKey.length 0) with
    | some txBzs => { txKey := txBzs }
    | none => { txKey := [] }
  else
    { txKey := [] }

/-- `func TxKeyFromProto(dp *tmproto.TxKey) (TxKey, error)`: a nil message
yields the zero key and the error "nil data"; otherwise the wire bytes are
copied positionally into a zero-initialized 32-byte buffer by a loop ranging
over the wire field's indices. -/
def TxKeyFromProto (dp : Option TmTxKey) : GoResult (List Nat) :=
  match dp with
  | none => .err (List.replicate sha256Size 0) "nil data"
  | some w =>
    match copyLoop w.txKey 0 (List.replicate sha256Size 0) with
    | some txBzs => .ok txBzs
    | none => .panic

/-- The loop body of `TxKeysListFromProto`, with the accumulator `txKeys`
made explicit: converts each element in order, aborting with `nil, err` on
the first failure. -/
def txKeysLoop : List (Option TmTxKey) → List (List Nat) → GoResult (List (List Nat))
  | [], acc => .ok acc
  | dp :: rest, acc =>
    match TxKeyFromProto dp with
    | .ok k => txKeysLoop rest (acc ++ [k])
    | .err _ msg => .err [] msg
    | .panic => .panic

/-- `func TxKeysListFromProto(dps []*tmproto.TxKey) ([]TxKey, error)`. -/
def TxKeysListFromProto (dps : List (Option TmTxKey)) : GoResult (List (List Nat)) :=
  txKeysLoop dps []

/-- The key a wire element converts to when conversion succeeds (used to
state order preservation); `[]` in the failure cases. -/
def keyOf (dp : Option TmTxKey) : List Nat :=
  match TxKeyFromProto dp with
  | .ok k => k
  | _ => []

-- Helper lemmas about the copy loop.

lemma set_append_len (pre : List Nat) (v p0 : Nat) (ps : List Nat) :
    (pre ++ p0 :: ps).set pre.length v = pre ++ v :: ps := by
  induction pre with
  | nil => rfl
  | cons a t _ => simp [List.set]

lemma copyLoop_copies (l : List Nat) : ∀ pre post : List Nat,
    l.length ≤ post.length →
    copyLoop l pre.length (pre ++ post) = some (pre ++ l ++ post.drop l.length) := by
  induction l with
  | nil => intro pre post _; simp [copyLoop]
  | cons v rest ih =>
    intro pre post h
    cases post with
    | nil => simp at h
    | cons p0 ps =>
      have hset : arraySet (pre ++ p0 :: ps) pre.length v = some (pre ++ v :: ps) := by
        unfold arraySet
        rw [if_pos (by simp)]
        rw [set_append_len]
      simp only [copyLoop, hset]
      have h1 : pre.length + 1 = (pre ++ [v]).length := by simp
      have h2 : pre ++ v :: ps = (pre ++ [v]) ++ ps := by simp
      rw [h1, h2, ih (pre ++ [v]) ps (by simp only [List.length_cons] at h; omega)]
      simp [List.append_assoc]

lemma copyLoop_overflow (l : List Nat) : ∀ pre post : List Nat,
    post.length < l.length →
    copyLoop l pre.length (pre ++ post) = none := by
  induction l with
  | nil => intro pre post h; simp at h
  | cons v rest ih =>
    intro pre post h
    cases post with
    | nil =>
      have hset : arraySet (pre ++ []) pre.length v = none := by
        unfold arraySet
        rw [if_neg (by simp)]
      simp only [copyLoop, hset]
    | cons p0 ps =>
      have hset : arraySet (pre ++ p0 :: ps) pre.length v = some (pre ++ v :: ps) := by
        unfold arraySet
        rw [if_pos (by simp)]
        rw [set_append_len]
      simp only [copyLoop, hset]
      have h1 : pre.length + 1 = (pre ++ [v]).length := by simp
      have h2 : pre ++ v :: ps = (pre ++ [v]) ++ ps := by simp
      rw [h1, h2, ih (pre ++ [v]) ps (by simpa using h)]

lemma copyLoop_from_zero (l post : List Nat) (h : l.length ≤ post.length) :
    copyLoop l 0 post = some (l ++ post.drop l.length) := by
  simpa using copyLoop_copies l [] post h

lemma copyLoop_from_zero_overflow (l post : List Nat) (h : post.length < l.length) :
    copyLoop l 0 post = none := by
  simpa using copyLoop_overflow l [] post h

lemma toProto_txKey_eq (k : List Nat) (h : k.length = sha256Size) :
    (TxKey.ToProto k).txKey = k := by
  have h32 : k.length = 32 := h
  unfold TxKey.ToProto
  rw [if_pos (by omega)]
  rw [copyLoop_from_zero k _ (by simp)]
  simp

-- Error taxonomy.

/-- The closed set of error values the mempool surfaces, as Go dynamic
error types.  `errorString` is a `errors.New` value (such as the
`ErrTxInCache` sentinel).  `wrapped` models an error produced by wrapping
another error with added context (Go `fmt.Errorf` with `%w`, whose
`Unwrap` returns the cause); it is not declared in this file's source but
is how intermediate layers chain errors, which `errors.As` traverses.
`ErrPreCheck.Reason` is a Go `error` interface value and may be nil,
hence `Option`. -/
inductive GoError where
  | errorString (s : String)
  | ErrWrongHeight (desiredHeight currentAuctionHeight : Int)
  | ErrBundleFull (bundleId bundleHeight : Int)
  | ErrTxMalformedForBundle (bundleId bundleSize bundleHeight bundleOrder : Int)
  | ErrTxTooLarge (max actual : Int)
  | ErrMempoolIsFull (numTxs maxTxs txsBytes maxTxsBytes : Int)
  | ErrMempoolPendingIsFull (numTxs maxTxs txsBytes maxTxsBytes : Int)
  | ErrPreCheck (reason : Option GoError)
  | wrapped (msg : String) (cause : GoError)

/-- `var ErrTxInCache = errors.New("tx already exists in cache")`. -/
def ErrTxInCache : GoError := .errorString "tx already exists in cache"

/-- The `Error()` method of each variant, with `fmt.Sprintf`'s `%d` verbs
rendered by `toString` on `Int`.  `none` is a runtime fault: calling
`Error()` on an `ErrPreCheck` whose `Reason` is nil dereferences the nil
interface value. -/
def GoError.Error : GoError → Option String
  | .errorString s => some s
  | .ErrWrongHeight d c =>
      some ("Tx submitted for wrong height, asked for " ++ toString d ++
        ", but current auction height is " ++ toString c)
  | .ErrBundleFull i h =>
      some ("Tx submitted but bundle is full, for bundleId " ++ toString i ++
        " with bundle size " ++ toString h)
  | .ErrTxMalformedForBundle i s h o =>
      some ("Tx submitted but malformed with respect to bundling, for bundleId " ++
        toString i ++ ", at height " ++ toString h ++ ", with bundleSize " ++
        toString s ++ ", and bundleOrder " ++ toString o)
  | .ErrTxTooLarge m a =>
      some ("Tx too large. Max size is " ++ toString m ++ ", but got " ++ toString a)
  | .ErrMempoolIsFull n mn b mb =>
      some ("mempool is full: number of txs " ++ toString n ++ " (max: " ++
        toString mn ++ "), total txs bytes " ++ toString b ++ " (max: " ++
        toString mb ++ ")")
  | .ErrMempoolPendingIsFull n mn b mb =>
      some ("mempool pending set is full: number of txs " ++ toString n ++ " (max: " ++
        toString mn ++ "), total txs bytes " ++ toString b ++ " (max: " ++
        toString mb ++ ")")
  | .ErrPreCheck none => none
  | .ErrPreCheck (some r) => r.Error
  | .wrapped msg _ => some msg

/-- The traversal of `errors.As(err, &ErrPreCheck{})` over a non-nil
error: true when the dynamic type is `ErrPreCheck`, otherwise unwrap the
cause chain and retry. -/
def errorsAsPreCheck : GoError → Bool
  | .ErrPreCheck _ => true
  | .wrapped _ cause => errorsAsPreCheck cause
  | _ => false

/-- `func IsPreCheckError(err error) bool`: `errors.As(err, &ErrPreCheck{})`,
which is false on a nil error. -/
def IsPreCheckError : Option GoError → Bool
  | none => false
  | some e => errorsAsPreCheck e

-- Claim theorems.

/-- Claim C4: `TxKeyFromProto` applied to an absent (nil) wire message
returns the error "nil data" together with the zero key as a non-result,
and never reports success. -/
theorem TxKeyFromProto_nil_rejection :
    TxKeyFromProto none = GoResult.err (List.replicate sha256Size 0) "nil data" ∧
    ∀ k, TxKeyFromProto none ≠ GoResult.ok k := by
  refine ⟨rfl, ?_⟩
  intro k h
  simp [TxKeyFromProto] at h

/-- Claim C7: `ToProto` is total and pure; for every 32-byte key the wire
field is byte-for-byte the key and has length exactly 32. -/
theorem ToProto_total_exact (k : List Nat) (h : k.length = sha256Size) :
    (TxKey.ToProto k).txKey = k ∧ (TxKey.ToProto k).txKey.length = sha256Size := by
  have he := toProto_txKey_eq k h
  exact ⟨he, by rw [he, h]⟩

theorem ToProto_total_exact_witness :
    (List.replicate 32 (1 : Nat)).length = sha256Size ∧
    ((TxKey.ToProto (List.replicate 32 1)).txKey = List.replicate 32 1 ∧
      (TxKey.ToProto (List.replicate 32 1)).txKey.length = sha256Size) :=
  ⟨by decide, ToProto_total_exact _ (by decide)⟩

/-- Claim C2: round trip; for every 32-byte key `k`,
`TxKeyFromProto (k.ToProto())` succeeds with exactly `k`. -/
theorem TxKey_roundtrip (k : List Nat) (h : k.length = sha256Size) :
    TxKeyFromProto (some (TxKey.ToProto k)) = GoResult.ok k := by
  have he := toProto_txKey_eq k h
  simp only [TxKeyFromProto, he]
  rw [copyLoop_from_zero k _ (by simp [h])]
  rw [h]
  rw [show (List.replicate sha256Size 0).drop sha256Size = [] from by decide]
  simp

theorem TxKey_roundtrip_witness :
    (List.replicate 32 (2 : Nat)).length = sha256Size ∧
    TxKeyFromProto (some (TxKey.ToProto (List.replicate 32 2))) =
      GoResult.ok (List.replicate 32 2) :=
  ⟨by decide, TxKey_roundtrip _ (by decide)⟩

/-- Claim C8: for every present wire message whose byte field is shorter
than 32 bytes, `TxKeyFromProto` succeeds with the field's bytes copied to
the front of the key and trailing zeros. -/
theorem TxKeyFromProto_short (w : TmTxKey) (h : w.txKey.length < sha256Size) :
    TxKeyFromProto (some w) =
      GoResult.ok (w.txKey ++ List.replicate (sha256Size - w.txKey.length) 0) := by
  simp only [TxKeyFromProto]
  rw [copyLoop_from_zero _ _ (by simp only [List.length_replicate]; omega)]
  rw [List.drop_replicate]

theorem TxKeyFromProto_short_witness :
    (TmTxKey.mk [1, 2, 3]).txKey.length < sha256Size ∧
    TxKeyFromProto (some (TmTxKey.mk [1, 2, 3])) =
      GoResult.ok ([1, 2, 3] ++ List.replicate (sha256Size - 3) 0) :=
  ⟨by decide, TxKeyFromProto_short _ (by decide)⟩

/-- Claim C1 (counterexample): on a present wire message with a 33-byte
field, `TxKeyFromProto` does not succeed with the first 32 bytes; it
faults (out-of-range array write). -/
theorem TxKeyFromProto_overlong_counterexample :
    ¬ (TxKeyFromProto (some (TmTxKey.mk (List.replicate 33 0))) =
        GoResult.ok (List.replicate 32 0)) ∧
    TxKeyFromProto (some (TmTxKey.mk (List.replicate 33 0))) = GoResult.panic := by
  constructor
  · decide
  · decide

/-- Claim C1 (amended): for every present wire message whose byte field is
longer than 32 bytes, `TxKeyFromProto` faults: the copy loop ranges over
the input's indices and writes out of the 32-byte array's range. -/
theorem TxKeyFromProto_overlong_panics (w : TmTxKey)
    (h : sha256Size < w.txKey.length) :
    TxKeyFromProto (some w) = GoResult.panic := by
  simp only [TxKeyFromProto]
  rw [copyLoop_from_zero_overflow _ _ (by simp only [List.length_replicate]; omega)]

theorem TxKeyFromProto_overlong_panics_witness :
    sha256Size < (TmTxKey.mk (List.replicate 33 5)).txKey.length ∧
    TxKeyFromProto (some (TmTxKey.mk (List.replicate 33 5))) = GoResult.panic :=
  ⟨by decide, TxKeyFromProto_overlong_panics _ (by decide)⟩

-- List conversion lemmas.

lemma txKeysLoop_nil_at : ∀ (dps : List (Option TmTxKey)) (i : Nat)
    (acc : List (List Nat)), i < dps.length → dps.getD i none = none →
    (∀ j, j < i → (TxKeyFromProto (dps.getD j none)).isOk) →
    txKeysLoop dps acc = GoResult.err [] "nil data" := by
  intro dps
  induction dps with
  | nil => intro i acc hi _ _; simp at hi
  | cons dp rest ih =>
    intro i acc hi hnil hprev
    cases i with
    | zero =>
      have hdp : dp = none := by simpa using hnil
      subst hdp
      simp [txKeysLoop, TxKeyFromProto]
    | succ i =>
      have h0 : (TxKeyFromProto dp).isOk := by
        simpa using hprev 0 (Nat.succ_pos i)
      cases hk : TxKeyFromProto dp with
      | ok k =>
        simp only [txKeysLoop, hk]
        exact ih i (acc ++ [k]) (by simpa using hi) (by simpa using hnil)
          (fun j hj => by simpa using hprev (j + 1) (by omega))
      | err v msg => rw [hk] at h0; simp [GoResult.isOk] at h0
      | panic => rw [hk] at h0; simp [GoResult.isOk] at h0

lemma txKeysLoop_all_ok : ∀ (dps : List (Option TmTxKey)) (acc : List (List Nat)),
    (∀ dp ∈ dps, (TxKeyFromProto dp).isOk) →
    txKeysLoop dps acc = GoResult.ok (acc ++ dps.map keyOf) := by
  intro dps
  induction dps with
  | nil => intro acc _; simp [txKeysLoop]
  | cons dp rest ih =>
    intro acc h
    have h0 : (TxKeyFromProto dp).isOk := h dp (by simp)
    cases hk : TxKeyFromProto dp with
    | ok k =>
      have hkey : keyOf dp = k := by simp [keyOf, hk]
      simp only [txKeysLoop, hk]
      rw [ih (acc ++ [k]) (fun d hd => h d (by simp [hd]))]
      simp [hkey]
    | err v msg => rw [hk] at h0; simp [GoResult.isOk] at h0
    | panic => rw [hk] at h0; simp [GoResult.isOk] at h0

lemma getD_map_keyOf : ∀ (dps : List (Option TmTxKey)) (j : Nat),
    (dps.map keyOf).getD j [] = keyOf (dps.getD j none) := by
  intro dps
  induction dps with
  | nil => intro j; simp [keyOf, TxKeyFromProto]
  | cons dp rest ih =>
    intro j
    cases j with
    | zero => simp
    | succ j => simpa using ih j

lemma fromProto_eq_keyOf (dp : Option TmTxKey) (h : (TxKeyFromProto dp).isOk) :
    TxKeyFromProto dp = GoResult.ok (keyOf dp) := by
  cases hk : TxKeyFromProto dp with
  | ok k => simp [keyOf, hk]
  | err v msg => rw [hk] at h; simp [GoResult.isOk] at h
  | panic => rw [hk] at h; simp [GoResult.isOk] at h

/-- Claim C3: if element `i` of the input is nil and every earlier element
converts successfully, `TxKeysListFromProto` returns the "nil data" error
from element `i` with a nil (empty) key slice — no truncated prefix. -/
theorem TxKeysListFromProto_failfast (dps : List (Option TmTxKey)) (i : Nat)
    (hi : i < dps.length) (hnil : dps.getD i none = none)
    (hprev : ∀ j, j < i → (TxKeyFromProto (dps.getD j none)).isOk) :
    TxKeysListFromProto dps = GoResult.err [] "nil data" :=
  txKeysLoop_nil_at dps i [] hi hnil hprev

theorem TxKeysListFromProto_failfast_witness :
    (1 < ([some (TmTxKey.mk [7]), none] : List (Option TmTxKey)).length ∧
      ([some (TmTxKey.mk [7]), none] : List (Option TmTxKey)).getD 1 none = none) ∧
    TxKeysListFromProto [some (TmTxKey.mk [7]), none] = GoResult.err [] "nil data" :=
  ⟨⟨by decide, by decide⟩,
    TxKeysListFromProto_failfast [some (TmTxKey.mk [7]), none] 1 (by decide) (by decide)
      (fun j hj => by
        have hj0 : j = 0 := by omega
        subst hj0
        decide)⟩

/-- Claim C6: on a list of wire messages that all convert successfully,
`TxKeysListFromProto` succeeds with a list of the same length whose `j`-th
element is the conversion of the `j`-th input element. -/
theorem TxKeysListFromProto_order (dps : List (Option TmTxKey))
    (h : ∀ dp ∈ dps, (TxKeyFromProto dp).isOk) :
    ∃ ks, TxKeysListFromProto dps = GoResult.ok ks ∧ ks.length = dps.length ∧
      ∀ j, j < dps.length →
        TxKeyFromProto (dps.getD j none) = GoResult.ok (ks.getD j []) := by
  refine ⟨dps.map keyOf, ?_, by simp, ?_⟩
  · unfold TxKeysListFromProto
    rw [txKeysLoop_all_ok dps [] h]
    simp
  · intro j hj
    rw [getD_map_keyOf]
    refine fromProto_eq_keyOf _ (h _ ?_)
    rw [List.getD_eq_getElem dps none hj]
    exact List.getElem_mem hj

theorem TxKeysListFromProto_order_witness :
    (∀ dp ∈ ([some (TmTxKey.mk [4]), some (TmTxKey.mk [])] : List (Option TmTxKey)),
      (TxKeyFromProto dp).isOk) ∧
    ∃ ks, TxKeysListFromProto [some (TmTxKey.mk [4]), some (TmTxKey.mk [])] =
        GoResult.ok ks ∧
      ks.length = ([some (TmTxKey.mk [4]), some (TmTxKey.mk [])] :
        List (Option TmTxKey)).length ∧
      ∀ j, j < ([some (TmTxKey.mk [4]), some (TmTxKey.mk [])] :
          List (Option TmTxKey)).length →
        TxKeyFromProto (([some (TmTxKey.mk [4]), some (TmTxKey.mk [])] :
          List (Option TmTxKey)).getD j none) = GoResult.ok (ks.getD j []) :=
  ⟨by decide, TxKeysListFromProto_order _ (by decide)⟩

/-- Claim C5: `IsPreCheckError` is true on an `ErrPreCheck` with any
nested reason and on any error transitively wrapping one; it is false on
every other taxonomy variant and on a nil error, without faulting. -/
theorem IsPreCheckError_classification :
    (∀ r, IsPreCheckError (some (GoError.ErrPreCheck r)) = true) ∧
    (∀ msg e, IsPreCheckError (some e) = true →
      IsPreCheckError (some (GoError.wrapped msg e)) = true) ∧
    (∀ m a, IsPreCheckError (some (GoError.ErrTxTooLarge m a)) = false) ∧
    IsPreCheckError (some ErrTxInCache) = false ∧
    (∀ d c, IsPreCheckError (some (GoError.ErrWrongHeight d c)) = false) ∧
    (∀ a b, IsPreCheckError (some (GoError.ErrBundleFull a b)) = false) ∧
    (∀ a b c d,
      IsPreCheckError (some (GoError.ErrTxMalformedForBundle a b c d)) = false) ∧
    (∀ a b c d, IsPreCheckError (some (GoError.ErrMempoolIsFull a b c d)) = false) ∧
    (∀ a b c d,
      IsPreCheckError (some (GoError.ErrMempoolPendingIsFull a b c d)) = false) ∧
    IsPreCheckError none = false := by
  refine ⟨fun r => rfl, ?_, fun m a => rfl, rfl, fun d c => rfl, fun a b => rfl,
    fun a b c d => rfl, fun a b c d => rfl, fun a b c d => rfl, rfl⟩
  intro msg e h
  simpa [IsPreCheckError, errorsAsPreCheck] using h

theorem IsPreCheckError_classification_witness :
    IsPreCheckError (some (GoError.ErrPreCheck none)) = true ∧
    IsPreCheckError (some (GoError.wrapped "ctx" (GoError.ErrPreCheck none))) = true :=
  ⟨rfl, IsPreCheckError_classification.2.1 "ctx" (GoError.ErrPreCheck none) rfl⟩

/-- Claim C9: the rendered `ErrTxTooLarge` message contains the decimal
renderings of `Max` and `Actual`, and the rendered `ErrMempoolIsFull`
message contains those of `NumTxs`, `MaxTxs`, `TxsBytes`, `MaxTxsBytes`. -/
theorem taxonomy_message_renders_fields (m a n mt b mb : Int) :
    (∃ s, (GoError.ErrTxTooLarge m a).Error = some s ∧
      (∃ p q, s.data = p ++ (toString m).data ++ q) ∧
      (∃ p q, s.data = p ++ (toString a).data ++ q)) ∧
    (∃ s, (GoError.ErrMempoolIsFull n mt b mb).Error = some s ∧
      (∃ p q, s.data = p ++ (toString n).data ++ q) ∧
      (∃ p q, s.data = p ++ (toString mt).data ++ q) ∧
      (∃ p q, s.data = p ++ (toString b).data ++ q) ∧
      (∃ p q, s.data = p ++ (toString mb).data ++ q)) := by
  constructor
  · refine ⟨"Tx too large. Max size is " ++ toString m ++ ", but got " ++ toString a,
      by simp [GoError.Error], ?_, ?_⟩
    · exact ⟨("Tx too large. Max size is ").data, (", but got " ++ toString a).data,
        by simp [String.data_append, List.append_assoc]⟩
    · exact ⟨("Tx too large. Max size is " ++ toString m ++ ", but got ").data, [],
        by simp [String.data_append, List.append_assoc]⟩
  · refine ⟨"mempool is full: number of txs " ++ toString n ++ " (max: " ++
      toString mt ++ "), total txs bytes " ++ toString b ++ " (max: " ++
      toString mb ++ ")", by simp [GoError.Error], ?_, ?_, ?_, ?_⟩
    · exact ⟨("mempool is full: number of txs ").data,
        (" (max: " ++ toString mt ++ "), total txs bytes " ++ toString b ++
          " (max: " ++ toString mb ++ ")").data,
        by simp [String.data_append, List.append_assoc]⟩
    · exact ⟨("mempool is full: number of txs " ++ toString n ++ " (max: ").data,
        ("), total txs bytes " ++ toString b ++ " (max: " ++ toString mb ++ ")").data,
        by simp [String.data_append, List.append_assoc]⟩
    · exact ⟨("mempool is full: number of txs " ++ toString n ++ " (max: " ++
        toString mt ++ "), total txs bytes ").data,
        (" (max: " ++ toString mb ++ ")").data,
        by simp [String.data_append, List.append_assoc]⟩
    · exact ⟨("mempool is full: number of txs " ++ toString n ++ " (max: " ++
        toString mt ++ "), total txs bytes " ++ toString b ++ " (max: ").data,
        (")").data,
        by simp [String.data_append, List.append_assoc]⟩

/-- Claim C10: `ErrPreCheck`'s message renderer is a pure pass-through of
its nested reason's renderer, and with a nil reason the call faults (nil
dereference), so rendering is defined only for a non-nil reason. -/
theorem ErrPreCheck_Error_passthrough :
    (∀ r : GoError, (GoError.ErrPreCheck (some r)).Error = r.Error) ∧
    (GoError.ErrPreCheck none).Error = none := by
  constructor
  · intro r
    simp [GoError.Error]
  · simp [GoError.Error]
